import Mathlib

/-!
Verification of the fastapi-backend repository against its natural-language
specification.  Each section shallowly embeds one portion of the Python
source as executable Lean definitions and proves (or refutes) the
corresponding specification claims.

Sources embedded:
  * `src/internal/core/signature.py`   (`HMACSigner.is_timestamp_valid`,
    module-level `verify_signature`)
  * `src/internal/middleware/auth.py`  (`AuthMiddleware.dispatch`, open-api branch)
  * `src/internal/utils/orm_helpers.py` (`QueryBuilder`, `UpdateBuilder`)
  * `src/internal/dao/cache.py`        (`set_session_list`, `login_and_set_session`)
  * `src/internal/core/session.py`     (`verify_session`)
  * `src/pkg/snow_flake.py`            (`Snowflake.generate_id`)
  * `src/pkg/resp.py`                  (`CustomORJSONResponse.render`)
  * `src/pkg/anyio_task_manager.py`    (`AnyioTaskManager.add_task`)
  * `src/internal/utils/asyncio_task.py` (`AsyncTaskManager.add_task`)
-/

namespace Signature

/-- Model of the Python `int(str)` builtin restricted to the forms the
signature middleware can meet: an optional `+`/`-` sign followed by a
non-empty run of decimal digits parses to that integer; anything else
(including the empty string and non-digit characters) raises `ValueError`,
modelled as `none`. -/
def parseDigits : List Char → Option Nat
  | [] => none
  | cs =>
    if cs.all Char.isDigit then
      some (cs.foldl (fun acc c => acc * 10 + (c.toNat - '0'.toNat)) 0)
    else
      none

def parseInt (s : String) : Option Int :=
  match s.toList with
  | '+' :: rest => (parseDigits rest).map (fun n => (n : Int))
  | '-' :: rest => (parseDigits rest).map (fun n => -(n : Int))
  | cs => (parseDigits cs).map (fun n => (n : Int))

/-- Embedding of `HMACSigner.is_timestamp_valid`
(`src/internal/core/signature.py` lines 47-64).  The wall clock
(`int(time.time())`) is passed in as `currentTime`.  The source parses the
request timestamp with `int(...)` inside a `try`; a parse failure is caught
and re-raised as `HTTPException(status_code=500)`, modelled as
`Except.error 500`.  On a successful parse it returns `False` when
`current_time - request_time > timestamp_tolerance` and `True` otherwise. -/
def isTimestampValid (tolerance currentTime : Int) (requestTime : String) :
    Except Nat Bool :=
  match parseInt requestTime with
  | none => .error 500
  | some rt => if currentTime - rt > tolerance then .ok false else .ok true

/-- Embedding of the module-level `verify_signature`
(`src/internal/core/signature.py` lines 67-82): an invalid timestamp gives
`False`; then the HMAC comparison decides; both checks passing gives `True`.
The outcome of `hmac.compare_digest` on the supplied signature is abstracted
as the boolean `signatureMatches` (the claim under verification does not
depend on how the digest itself is computed).  An exception escaping
`is_timestamp_valid` propagates. -/
def verifySignatureCheck (tolerance currentTime : Int) (xTimestamp : String)
    (signatureMatches : Bool) : Except Nat Bool :=
  match isTimestampValid tolerance currentTime xTimestamp with
  | .error e => .error e
  | .ok false => .ok false
  | .ok true => if !signatureMatches then .ok false else .ok true

/-- Outcome of the open-api branch of `AuthMiddleware.dispatch`
(`src/internal/middleware/auth.py` lines 24-33): a `401` response envelope,
or the request passing through to `call_next`. -/
inductive DispatchResult where
  | resp401
  | passthrough
deriving DecidableEq, Repr

/-- Embedding of the open-api branch of `AuthMiddleware.dispatch`: when the
signature verification returns `False` the middleware answers with the
`401` ("Unauthorized") response; when it returns `True` the request is
forwarded; when verification raises, the exception propagates out of the
middleware with its own HTTP status. -/
def authDispatchOpenApi (tolerance currentTime : Int) (xTimestamp : String)
    (signatureMatches : Bool) : Except Nat DispatchResult :=
  match verifySignatureCheck tolerance currentTime xTimestamp signatureMatches with
  | .error e => .error e
  | .ok false => .ok .resp401
  | .ok true => .ok .passthrough

end Signature

open Signature in
/-- C4: with tolerance 300 and current unix time `T`, `is_timestamp_valid`
returns `true` exactly when `T - ts ≤ 300` for every integer-valued
timestamp string: `T-300` is valid, `T-301` is invalid, and a future
timestamp such as `T+10000` is valid because only past skew is checked. -/
theorem C4_is_timestamp_valid_iff (T ts : Int) (s : String)
    (h : parseInt s = some ts) :
    isTimestampValid 300 T s = .ok (decide (T - ts ≤ 300)) := by
  unfold isTimestampValid
  rw [h]
  by_cases hle : T - ts ≤ 300
  · simp [hle, not_lt.mpr hle]
  · simp [hle, lt_of_not_le hle]

open Signature in
/-- Witness for C4: with `T = 1000`, the timestamp `700 = T-300` is valid,
`699 = T-301` is invalid, and the future timestamp `11000 = T+10000` is
reported valid. -/
theorem C4_is_timestamp_valid_iff_witness :
    isTimestampValid 300 1000 "700" = .ok true ∧
    isTimestampValid 300 1000 "699" = .ok false ∧
    isTimestampValid 300 1000 "11000" = .ok true := by
  refine ⟨?_, ?_, ?_⟩
  · have h := C4_is_timestamp_valid_iff 1000 700 "700" (by decide)
    simpa using h
  · have h := C4_is_timestamp_valid_iff 1000 699 "699" (by decide)
    simpa using h
  · have h := C4_is_timestamp_valid_iff 1000 11000 "11000" (by decide)
    simpa using h

open Signature in
/-- C10: for every timestamp string that does not parse as an integer,
`HMACSigner.is_timestamp_valid` does not return a boolean at all: it raises
an HTTP 500 error, so a signed open-API request carrying a malformed
`X-Timestamp` header is rejected with 500 (the exception propagates through
the middleware), whereas every other signature-verification failure — a
stale timestamp or a digest mismatch — produces the 401 response. -/
theorem C10_malformed_timestamp_500 (T : Int) (s : String) (sig : Bool)
    (h : parseInt s = none) :
    isTimestampValid 300 T s = .error 500 ∧
    authDispatchOpenApi 300 T s sig = .error 500 ∧
    (∀ (s' : String) (ts' : Int), parseInt s' = some ts' →
      (T - ts' > 300 ∨ sig = false) →
      authDispatchOpenApi 300 T s' sig = .ok .resp401) := by
  refine ⟨?_, ?_, ?_⟩
  · unfold isTimestampValid
    rw [h]
  · unfold authDispatchOpenApi verifySignatureCheck isTimestampValid
    rw [h]
  · intro s' ts' hp hfail
    unfold authDispatchOpenApi verifySignatureCheck isTimestampValid
    rw [hp]
    rcases hfail with hstale | hsig
    · simp [hstale]
    · by_cases hst : T - ts' > 300
      · simp [hst]
      · simp [hst, hsig]

open Signature in
/-- Witness for C10: the malformed header `"abc"` raises 500 through
`is_timestamp_valid` and the middleware, while with the same clock a stale
(parseable) timestamp is answered with the 401 envelope. -/
theorem C10_malformed_timestamp_500_witness :
    isTimestampValid 300 1000 "abc" = .error 500 ∧
    authDispatchOpenApi 300 1000 "abc" true = .error 500 ∧
    authDispatchOpenApi 300 1000 "1" true = .ok .resp401 := by
  have h := C10_malformed_timestamp_500 1000 "abc" true (by decide)
  exact ⟨h.1, h.2.1, h.2.2 "1" 1 (by decide) (Or.inl (by decide))⟩

namespace Query

/-- A row of an entity table that has a `deleted_at` column
(`ModelMixin` in `src/internal/models/__init__.py`): soft-deleted rows carry
a non-null `deleted_at` timestamp. -/
structure SRow where
  id : Nat
  deleted_at : Option Int
deriving DecidableEq, Repr

/-- A WHERE condition the builder can attach.  The only condition the
claims need is the soft-delete filter added by
`BaseBuilder._apply_delete_at_is_none` (`deleted_at IS NULL`). -/
inductive Cond where
  | deletedAtIsNull
deriving DecidableEq, Repr

def evalCond (r : SRow) : Cond → Bool
  | .deletedAtIsNull => r.deleted_at.isNone

/-- In `QueryBuilder.__init__` (`src/internal/utils/orm_helpers.py` line
207) and in `QueryBuilder.all` / `QueryBuilder.first` (lines 223, 235) the
guard reads `include_deleted is False and self._model_cls.has_deleted_at_column`:
the method is referenced without parentheses, so the right operand is a
bound-method object, which in Python is always truthy. -/
def hasDeletedAtColumnMethodRef : Bool := true

/-- Embedding of the statement built by `QueryBuilder.__init__` without a
`custom_stmt`: the list of WHERE conditions attached at construction.
`include_deleted` defaults to `None` (modelled `none`); the soft-delete
filter is attached only when `include_deleted is False`. -/
def queryInitConds (includeDeleted : Option Bool) : List Cond :=
  if includeDeleted == some false && hasDeletedAtColumnMethodRef then
    [Cond.deletedAtIsNull]
  else []

/-- Embedding of `QueryBuilder.all` (lines 222-232): the method may attach
the soft-delete filter once more when its own `include_deleted` keyword is
`False` (again defaulting to `None`), then executes the statement, which
returns exactly the rows satisfying every attached condition. -/
def execAll (conds : List Cond) (includeDeleted : Option Bool)
    (rows : List SRow) : List SRow :=
  let conds :=
    if includeDeleted == some false && hasDeletedAtColumnMethodRef then
      conds ++ [Cond.deletedAtIsNull]
    else conds
  rows.filter (fun r => conds.all (evalCond r))

end Query

open Query in
/-- C1 (code bug): the docstring of `QueryBuilder.__init__` states that
`include_deleted` defaults to `False` and the specification states that by
default every query excludes soft-deleted rows, but the parameter actually
defaults to `None` and the filter is attached only when the flag is
explicitly `False` — so a query built and executed without the flag
returns a soft-deleted row (first conjunct, the failing input), exactly as
a query with `include_deleted=True` does (second conjunct), while only the
explicit `include_deleted=False` form filters it (third conjunct, and in
general such a query returns only rows whose `deleted_at` is null). -/
theorem C1_default_returns_soft_deleted :
    execAll (queryInitConds none) none [⟨1, some 5⟩] = [⟨1, some 5⟩] ∧
    execAll (queryInitConds (some true)) (some true) [⟨1, some 5⟩] = [⟨1, some 5⟩] ∧
    execAll (queryInitConds (some false)) none [⟨1, some 5⟩] = [] ∧
    (∀ rows : List SRow, ∀ r ∈ execAll (queryInitConds (some false)) none rows,
      r.deleted_at = none) := by
  refine ⟨by decide, by decide, by decide, ?_⟩
  intro rows r hr
  unfold execAll queryInitConds at hr
  simp only [List.mem_filter] at hr
  have h2 := hr.2
  simp only [List.all_eq_true] at h2
  have := h2 Cond.deletedAtIsNull (by simp [hasDeletedAtColumnMethodRef])
  simpa [evalCond, Option.isNone_iff_eq_none] using this

namespace Orm

/-- A value stored in the update dict of `UpdateBuilder`: a datetime (with
an optional timezone, since `UpdateBuilder.update` strips timezone
information), or a non-datetime payload. -/
inductive UVal where
  | vdt (ts : Int) (tz : Option Int)
  | vint (n : Int)
  | vstr (s : String)
deriving DecidableEq, Repr

/-- A Python dict with string keys, modelled as an insertion-ordered
association list: assignment to an existing key replaces the value in
place, assignment to a fresh key appends. -/
abbrev PyDict (α : Type) := List (String × α)

def dictContains {α : Type} (d : PyDict α) (k : String) : Bool :=
  d.any (fun kv => kv.1 == k)

def dictGet {α : Type} (d : PyDict α) (k : String) : Option α :=
  (d.find? (fun kv => kv.1 == k)).map Prod.snd

def dictSet {α : Type} (d : PyDict α) (k : String) (v : α) : PyDict α :=
  match d with
  | [] => [(k, v)]
  | kv :: rest => if kv.1 == k then (k, v) :: rest else kv :: dictSet rest k v

/-- `dict.setdefault(k, v)`: insert `(k, v)` only when `k` is absent. -/
def dictSetdefault {α : Type} (d : PyDict α) (k : String) (v : α) : PyDict α :=
  if dictContains d k then d else d ++ [(k, v)]

/-- `UpdateBuilder.update` strips the timezone from timezone-aware datetime
values (`value.replace(tzinfo=None)`). -/
def stripTzinfo : UVal → UVal
  | .vdt ts (some _) => .vdt ts none
  | v => v

/-- Embedding of `UpdateBuilder.update`
(`src/internal/utils/orm_helpers.py` lines 347-360): every keyword that is
not a real column of the entity (`has_column`) is skipped; datetime values
lose their timezone; surviving pairs are assigned into the update dict.
`cols` is the column-name list of the entity class. -/
def updateFields (cols : List String) (kwargs : List (String × UVal))
    (d : PyDict UVal) : PyDict UVal :=
  kwargs.foldl
    (fun acc kv =>
      if kv.1 ∈ cols then dictSet acc kv.1 (stripTzinfo kv.2) else acc)
    d

/-- Embedding of `UpdateBuilder.soft_delete` (lines 362-367): when the
entity has a `deleted_at` column, assign the current UTC time to it. -/
def softDelete (hasDeletedAt : Bool) (now : Int) (d : PyDict UVal) :
    PyDict UVal :=
  if !hasDeletedAt then d else dictSet d "deleted_at" (.vdt now none)

/-- Embedding of the value set produced by the `UpdateBuilder.update_stmt`
property (lines 369-410).  An empty update dict returns the statement
unchanged, with no SET clause at all.  Otherwise: when `deleted_at` is in
the dict, `updated_at` defaults to the `deleted_at` value; then
`updated_at` defaults to the current time; then, when the entity has an
`updater_id` column, `updater_id` defaults to the context user id. -/
def updateStmtValues (hasUpdaterId : Bool) (userId : UVal) (now : Int)
    (d : PyDict UVal) : PyDict UVal :=
  if d.isEmpty then d
  else
    let d1 :=
      match dictGet d "deleted_at" with
      | some v => dictSetdefault d "updated_at" v
      | none => d
    let d2 := dictSetdefault d1 "updated_at" (.vdt now none)
    if hasUpdaterId then dictSetdefault d2 "updater_id" userId else d2

/-- Applying an UPDATE statement with the given SET pairs to a single row
(the row is itself a column-to-value map). -/
def applyValuesToRow (row : PyDict UVal) (values : PyDict UVal) : PyDict UVal :=
  values.foldl (fun r kv => dictSet r kv.1 kv.2) row

/-- Embedding of `UpdateBuilder.execute` (lines 412-422): when the update
dict is empty the method only logs a warning and returns — no statement is
executed and the row is untouched; otherwise the generated statement is
executed against the row. -/
def executeUpdate (hasUpdaterId : Bool) (userId : UVal) (now : Int)
    (d : PyDict UVal) (row : PyDict UVal) : PyDict UVal :=
  if d.isEmpty then row
  else applyValuesToRow row (updateStmtValues hasUpdaterId userId now d)

theorem dictContains_dictSet {α : Type} (d : PyDict α) (k' k : String) (v : α) :
    dictContains (dictSet d k' v) k = (k' == k || dictContains d k) := by
  induction d with
  | nil => simp [dictSet, dictContains, List.any]
  | cons kv rest ih =>
    by_cases h : kv.1 = k'
    · simp [dictSet, dictContains, h]
    · simp only [dictSet, beq_iff_eq, h, if_false]
      simp only [dictContains, List.any_cons] at ih ⊢
      rw [ih]
      cases hk : (kv.1 == k) <;> cases hkk : (k' == k) <;> simp

theorem updateFields_contains_false (cols : List String)
    (kwargs : List (String × UVal)) (k : String) (hk : k ∉ cols)
    (d : PyDict UVal) (hd : dictContains d k = false) :
    dictContains (updateFields cols kwargs d) k = false := by
  induction kwargs generalizing d with
  | nil => simpa [updateFields] using hd
  | cons kv rest ih =>
    simp only [updateFields, List.foldl_cons] at ih ⊢
    by_cases hmem : kv.1 ∈ cols
    · simp only [hmem, if_true]
      apply ih
      rw [dictContains_dictSet, hd]
      have : kv.1 ≠ k := fun h => hk (h ▸ hmem)
      simp [this]
    · simp only [hmem, if_false]
      exact ih d hd

theorem updateFields_all_skipped (cols : List String)
    (kwargs : List (String × UVal))
    (hall : ∀ kv ∈ kwargs, kv.1 ∉ cols) (d : PyDict UVal) :
    updateFields cols kwargs d = d := by
  induction kwargs generalizing d with
  | nil => rfl
  | cons kv rest ih =>
    simp only [updateFields, List.foldl_cons]
    have h1 : kv.1 ∉ cols := hall kv (List.mem_cons_self _ _)
    simp only [h1, if_false]
    exact ih (fun x hx => hall x (List.mem_cons_of_mem _ hx)) d

end Orm

open Orm in
/-- C7: keys that are not real columns of the entity are silently dropped
by `UpdateBuilder.update` (a non-column key never enters the update dict),
and calling `update` with only non-column field names raises no error,
leaves the update dict empty, and `execute` then runs no statement, so the
row is unchanged. -/
theorem C7_non_columns_dropped (cols : List String)
    (kwargs : List (String × UVal)) (k : String) (hk : k ∉ cols)
    (hall : ∀ kv ∈ kwargs, kv.1 ∉ cols) :
    dictContains (updateFields cols kwargs []) k = false ∧
    updateFields cols kwargs [] = [] ∧
    (∀ (hasU : Bool) (uid : UVal) (now : Int) (row : PyDict UVal),
      executeUpdate hasU uid now (updateFields cols kwargs []) row = row) := by
  refine ⟨updateFields_contains_false cols kwargs k hk [] rfl,
          updateFields_all_skipped cols kwargs hall [], ?_⟩
  intro hasU uid now row
  rw [updateFields_all_skipped cols kwargs hall []]
  rfl

open Orm in
/-- Witness for C7: updating a `user` entity (columns `id`, `name`,
`updated_at`, `deleted_at`) with only the made-up fields `ghost` and
`bogus` leaves the update dict empty and the row unchanged. -/
theorem C7_non_columns_dropped_witness :
    dictContains
      (updateFields ["id", "name", "updated_at", "deleted_at"]
        [("ghost", .vint 1), ("bogus", .vstr "x")] []) "ghost" = false ∧
    updateFields ["id", "name", "updated_at", "deleted_at"]
        [("ghost", .vint 1), ("bogus", .vstr "x")] [] = [] ∧
    executeUpdate false (.vint 0) 100
        (updateFields ["id", "name", "updated_at", "deleted_at"]
          [("ghost", .vint 1), ("bogus", .vstr "x")] [])
        [("id", .vint 7), ("name", .vstr "alice")]
      = [("id", .vint 7), ("name", .vstr "alice")] := by
  have h := C7_non_columns_dropped ["id", "name", "updated_at", "deleted_at"]
    [("ghost", .vint 1), ("bogus", .vstr "x")] "ghost" (by decide) (by decide)
  exact ⟨h.1, h.2.1, h.2.2 false (.vint 0) 100 _⟩

namespace Orm

theorem dictGet_none_of_contains_false {α : Type} (d : PyDict α) (k : String)
    (h : dictContains d k = false) : dictGet d k = none := by
  induction d with
  | nil => rfl
  | cons kv rest ih =>
    simp only [dictContains, List.any_cons, Bool.or_eq_false_iff] at h
    simp only [dictGet, List.find?_cons, h.1]
    exact ih h.2

theorem dictContains_eq_isSome {α : Type} (d : PyDict α) (k : String) :
    dictContains d k = (dictGet d k).isSome := by
  induction d with
  | nil => rfl
  | cons kv rest ih =>
    simp only [dictContains, List.any_cons, dictGet, List.find?_cons]
    cases h : (kv.1 == k)
    · simpa [h, dictContains, dictGet] using ih
    · simp [h]

theorem dictGet_append {α : Type} (d d₂ : PyDict α) (k : String) :
    dictGet (d ++ d₂) k =
      match dictGet d k with
      | some v => some v
      | none => dictGet d₂ k := by
  induction d with
  | nil => simp [dictGet]
  | cons kv rest ih =>
    simp only [List.cons_append, dictGet, List.find?_cons] at ih ⊢
    cases h : (kv.1 == k)
    · simpa [h] using ih
    · simp [h]

theorem dictGet_dictSetdefault_self {α : Type} (d : PyDict α) (k : String)
    (v : α) :
    dictGet (dictSetdefault d k v) k = some ((dictGet d k).getD v) := by
  unfold dictSetdefault
  cases h : dictContains d k
  · have hget := dictGet_none_of_contains_false d k h
    simp only [Bool.false_eq_true, if_false, dictGet_append, hget]
    simp [dictGet]
  · rw [dictContains_eq_isSome] at h
    obtain ⟨w, hw⟩ := Option.isSome_iff_exists.mp h
    simp [hw]

theorem dictGet_dictSetdefault_ne {α : Type} (d : PyDict α) (k k' : String)
    (v : α) (hne : k ≠ k') :
    dictGet (dictSetdefault d k v) k' = dictGet d k' := by
  unfold dictSetdefault
  cases h : dictContains d k
  · simp only [Bool.false_eq_true, if_false, dictGet_append]
    cases hg : dictGet d k'
    · simp [dictGet, hne]
    · simp
  · simp

end Orm

open Orm in
/-- C6 counterexample: an update built through `UpdateBuilder` whose update
dict is empty (for example after calling `update` with no valid column at
all) generates a statement with no SET clause whatsoever — in particular
`updated_at` is not set even though the caller never supplied it, so the
claim that every built update statement sets `updated_at` fails. -/
theorem C6_counterexample_empty_update :
    updateStmtValues false (.vint 0) 100
        (updateFields ["id", "name", "updated_at", "deleted_at"] [] []) = [] ∧
    dictContains (updateStmtValues true (.vint 9) 100 []) "updated_at" = false := by
  exact ⟨rfl, rfl⟩

open Orm in
/-- C6 (amended): whenever the update dict is nonempty, the generated
statement sets `updated_at` to the caller-supplied `updated_at` when one
was supplied, otherwise to the value assigned to `deleted_at` when the
update also sets `deleted_at` (keeping the two timestamps in sync on a
soft delete), and otherwise to the current UTC time.  An update whose dict
is empty generates no assignment at all. -/
theorem C6_updated_at_sync (hasU : Bool) (uid : UVal) (now : Int)
    (d : PyDict UVal) (hd : d ≠ []) :
    dictGet (updateStmtValues hasU uid now d) "updated_at" =
      some (match dictGet d "updated_at" with
            | some v => v
            | none =>
              match dictGet d "deleted_at" with
              | some w => w
              | none => .vdt now none) ∧
    (∀ w, dictGet d "deleted_at" = some w → dictGet d "updated_at" = none →
      dictGet (updateStmtValues hasU uid now d) "updated_at" = some w) ∧
    (dictGet d "deleted_at" = none → dictGet d "updated_at" = none →
      dictGet (updateStmtValues hasU uid now d) "updated_at" =
        some (.vdt now none)) := by
  have hne : "updater_id" ≠ "updated_at" := by decide
  have key : dictGet (updateStmtValues hasU uid now d) "updated_at" =
      some (match dictGet d "updated_at" with
            | some v => v
            | none =>
              match dictGet d "deleted_at" with
              | some w => w
              | none => .vdt now none) := by
    unfold updateStmtValues
    have hemp : d.isEmpty = false := by
      cases d with
      | nil => exact absurd rfl hd
      | cons kv rest => rfl
    rw [hemp]
    simp only [Bool.false_eq_true, if_false]
    cases hdel : dictGet d "deleted_at" with
    | none =>
      cases hasU
      · simp only [Bool.false_eq_true, if_false]
        rw [dictGet_dictSetdefault_self]
        cases hupd : dictGet d "updated_at" <;> simp
      · simp only [if_true]
        rw [dictGet_dictSetdefault_ne _ _ _ _ hne,
          dictGet_dictSetdefault_self]
        cases hupd : dictGet d "updated_at" <;> simp
    | some w =>
      have h1 : dictGet (dictSetdefault d "updated_at" w) "updated_at" =
          some ((dictGet d "updated_at").getD w) :=
        dictGet_dictSetdefault_self d "updated_at" w
      have h2 : dictGet
          (dictSetdefault (dictSetdefault d "updated_at" w) "updated_at"
            (.vdt now none)) "updated_at" =
          some ((dictGet d "updated_at").getD w) := by
        rw [dictGet_dictSetdefault_self, h1]
        simp
      cases hasU
      · simp only [Bool.false_eq_true, if_false]
        rw [h2]
        cases hupd : dictGet d "updated_at" <;> simp
      · simp only [if_true]
        rw [dictGet_dictSetdefault_ne _ _ _ _ hne, h2]
        cases hupd : dictGet d "updated_at" <;> simp
  refine ⟨key, ?_, ?_⟩
  · intro w hw hu
    rw [key, hw, hu]
  · intro hw hu
    rw [key, hw, hu]

open Orm in
/-- Witness for C6: an update of the `name` column alone stamps
`updated_at` with the current time 100, while a soft delete stamping
`deleted_at = 50` synchronizes `updated_at` to 50. -/
theorem C6_updated_at_sync_witness :
    dictGet (updateStmtValues false (.vint 0) 100 [("name", .vstr "x")])
        "updated_at" = some (.vdt 100 none) ∧
    dictGet (updateStmtValues false (.vint 0) 100 [("deleted_at", .vdt 50 none)])
        "updated_at" = some (.vdt 50 none) := by
  have h1 := C6_updated_at_sync false (.vint 0) 100 [("name", .vstr "x")]
    (by decide)
  have h2 := C6_updated_at_sync false (.vint 0) 100
    [("deleted_at", .vdt 50 none)] (by decide)
  exact ⟨h1.1.trans (by decide), h2.1.trans (by decide)⟩

namespace TaskMgr

/-- In-process state of `AnyioTaskManager`
(`src/pkg/anyio_task_manager.py`): whether the persistent task group has
been started, the registry of task ids currently registered, and the list
of coroutines handed to the task group by `start_soon` during the run under
observation. -/
structure AnyioMgr where
  tgStarted : Bool
  tasks : List String
  spawned : List String
deriving DecidableEq, Repr

/-- Embedding of `AnyioTaskManager.add_task` (lines 118-146): raises
`RuntimeError` when the manager is not started; returns `False` leaving
everything untouched when `task_id` is already registered in this process;
otherwise registers the task, hands the coroutine to the task group via
`start_soon`, and returns `True`.  The method consults no other state — in
particular it performs no cache call of any kind. -/
def addTask (m : AnyioMgr) (taskId : String) : Except String (Bool × AnyioMgr) :=
  if !m.tgStarted then
    .error "AsyncTaskManagerAnyIO is not started. Call await start() first."
  else if taskId ∈ m.tasks then
    .ok (false, m)
  else
    .ok (true, { m with tasks := m.tasks ++ [taskId],
                        spawned := m.spawned ++ [taskId] })

/-- Modelled from the spec: the distributed lock of the cache layer
(`acquire_lock(key) -> lock_id | none`, §4.9) is absent from the source
tree, so the admission procedure the specification describes for
`add_task` is reconstructed from its words: before admission the lock
namespaced by function name + task id is acquired through the cache layer,
and when it cannot be acquired, admission fails by returning false.
`lockAcquirable` is the outcome the cache layer would give for that key. -/
def addTaskSpecModelled (lockAcquirable : Bool) (m : AnyioMgr)
    (taskId : String) : Except String (Bool × AnyioMgr) :=
  if !m.tgStarted then
    .error "AsyncTaskManagerAnyIO is not started. Call await start() first."
  else if taskId ∈ m.tasks then
    .ok (false, m)
  else if !lockAcquirable then
    .ok (false, m)
  else
    .ok (true, { m with tasks := m.tasks ++ [taskId],
                        spawned := m.spawned ++ [taskId] })

/-- Program counter of one `AsyncTaskManager.add_task` call
(`src/internal/utils/asyncio_task.py` lines 110-132).  `start`: about to
enter `async with self.lock` (waits while the lock is held).  `checkDup`:
holding the lock, about to test `task_id in self.tasks` (a hit returns
`False`, releasing the lock on the way out).  `spawnRun`: inside the task
group created by `async with anyio.create_task_group() as tg`, about to
`tg.start_soon(self._run_task, ...)`.  `insertReg`: about to
`self.tasks[task_id] = tg`.  `joinTg`: at the task-group exit, which
awaits the spawned `_run_task` — with `self.lock` still held, because the
task-group block sits inside the lock block.  `returnedTrue` /
`returnedFalse`: the call returned. -/
inductive APc where
  | start
  | checkDup
  | spawnRun
  | insertReg
  | joinTg
  | returnedTrue
  | returnedFalse
deriving DecidableEq, Repr

/-- Program counter of a spawned `_run_task` coroutine
(`src/internal/utils/asyncio_task.py` lines 24-52).  `body`: running the
user coroutine under the semaphore (capacity 100, never binding with two
tasks; the coroutine is taken to complete promptly, which is the generous
case for the claim).  `waitLock`: in the `finally`, about to
`async with self.lock` to pop the registry entry.  `popReg`: holding the
lock, popping `self.tasks[task_id]` and releasing on exit. -/
inductive RPc where
  | notSpawned
  | body
  | waitLock
  | popReg
  | done
deriving DecidableEq, Repr

inductive LockOwner where
  | callA1 | callA2 | runner1 | runner2
deriving DecidableEq, Repr

/-- Interleaved state of the claim scenario on `AsyncTaskManager`: two
concurrent `add_task` calls with the same task id (`a1`, `a2`), their
spawned `_run_task` coroutines (`r1`, `r2`), the manager lock `self.lock`
with its current owner, and whether the shared task id is currently a key
of `self.tasks`. -/
structure AsyncioConfig where
  a1 : APc
  a2 : APc
  r1 : RPc
  r2 : RPc
  lock : Option LockOwner
  registered : Bool
deriving DecidableEq, Repr

/-- Small-step transition relation of the scenario, as the list of
configurations one scheduler step away: each coroutine advances by one
statement of the source when enabled.  Acquiring `self.lock` is enabled
only while no one holds it; the task-group exit (`joinTg`) is enabled only
once the spawned `_run_task` has terminated; every other statement of a
coroutine that has started runs under the lock it already holds. -/
def nexts (c : AsyncioConfig) : List AsyncioConfig :=
  (match c.a1, c.lock with
   | .start, none => [{ c with a1 := .checkDup, lock := some .callA1 }]
   | .checkDup, _ =>
     if c.registered then [{ c with a1 := .returnedFalse, lock := none }]
     else [{ c with a1 := .spawnRun }]
   | .spawnRun, _ => [{ c with a1 := .insertReg, r1 := .body }]
   | .insertReg, _ => [{ c with a1 := .joinTg, registered := true }]
   | .joinTg, _ =>
     if c.r1 = .done then [{ c with a1 := .returnedTrue, lock := none }] else []
   | _, _ => [])
  ++
  (match c.a2, c.lock with
   | .start, none => [{ c with a2 := .checkDup, lock := some .callA2 }]
   | .checkDup, _ =>
     if c.registered then [{ c with a2 := .returnedFalse, lock := none }]
     else [{ c with a2 := .spawnRun }]
   | .spawnRun, _ => [{ c with a2 := .insertReg, r2 := .body }]
   | .insertReg, _ => [{ c with a2 := .joinTg, registered := true }]
   | .joinTg, _ =>
     if c.r2 = .done then [{ c with a2 := .returnedTrue, lock := none }] else []
   | _, _ => [])
  ++
  (match c.r1, c.lock with
   | .body, _ => [{ c with r1 := .waitLock }]
   | .waitLock, none => [{ c with r1 := .popReg, lock := some .runner1 }]
   | .popReg, _ => [{ c with r1 := .done, lock := none, registered := false }]
   | _, _ => [])
  ++
  (match c.r2, c.lock with
   | .body, _ => [{ c with r2 := .waitLock }]
   | .waitLock, none => [{ c with r2 := .popReg, lock := some .runner2 }]
   | .popReg, _ => [{ c with r2 := .done, lock := none, registered := false }]
   | _, _ => [])

/-- Both `add_task` calls pending, nothing spawned, lock free, registry
without the shared task id. -/
def initConfig : AsyncioConfig :=
  ⟨.start, .start, .notSpawned, .notSpawned, none, false⟩

/-- The stuck configuration the first call runs into: it holds the lock at
the task-group exit waiting for `_run_task`, which waits for the lock in
its `finally`; the second call is still waiting to acquire the lock. -/
def deadConfig : AsyncioConfig :=
  ⟨.joinTg, .start, .waitLock, .notSpawned, some .callA1, true⟩

def addNew (acc : List AsyncioConfig) (cs : List AsyncioConfig) :
    List AsyncioConfig :=
  cs.foldl (fun a c => if a.contains c then a else a ++ [c]) acc

/-- Breadth-first closure of `nexts`, stopping at a fixpoint. -/
def reachList : Nat → List AsyncioConfig → List AsyncioConfig
  | 0, acc => acc
  | fuel + 1, acc =>
    let acc2 := addNew acc ((acc.map nexts).flatten)
    if acc2.length == acc.length then acc else reachList fuel acc2

/-- The full reachable state space of the scenario (13 configurations; the
fuel 64 far exceeds the diameter, and the step-closure of the result is
proved below). -/
def asyncioReachable : List AsyncioConfig := reachList 64 [initConfig]

/-- The configurations some scheduling of the scenario can reach. -/
inductive AsyncioReach : AsyncioConfig → Prop where
  | base : AsyncioReach initConfig
  | step {c c2 : AsyncioConfig} : AsyncioReach c → c2 ∈ nexts c →
      AsyncioReach c2

end TaskMgr

open TaskMgr in
theorem asyncioReach_mem (c : TaskMgr.AsyncioConfig)
    (h : AsyncioReach c) : c ∈ asyncioReachable := by
  have hclosed : ∀ x ∈ asyncioReachable, ∀ y ∈ nexts x,
      y ∈ asyncioReachable := by decide
  induction h with
  | base => decide
  | step h1 h2 ih => exact hclosed _ ih _ h2

open TaskMgr in
/-- C8 counterexample: the claim that `add_task` acquires a cross-process
distributed lock and fails admission when the lock is unavailable is false
on the code — with a started manager, an empty registry, and the
distributed lock unavailable, the specification-modelled admission returns
`false`, yet the implemented `add_task` admits the task and returns `true`
(its result never depends on any cross-process state). -/
theorem C8_counterexample_no_lock :
    addTaskSpecModelled false ⟨true, [], []⟩ "42" =
      .ok (false, ⟨true, [], []⟩) ∧
    addTask ⟨true, [], []⟩ "42" = .ok (true, ⟨true, ["42"], ["42"]⟩) := by
  exact ⟨rfl, rfl⟩

open TaskMgr in
/-- C8 (amended): `AnyioTaskManager.add_task` is only an in-process guard:
on a started manager it returns `true` and registers the task exactly when
the task id is not yet registered in this process, and returns `false`
leaving the state untouched when it is; no distributed lock is consulted,
so admission never depends on cross-process state (the docstring of the
method itself says deduplication is per-process and duplicates are
possible across workers). -/
theorem C8_in_process_only (m : AnyioMgr) (taskId : String)
    (hstarted : m.tgStarted = true) :
    (taskId ∉ m.tasks →
      addTask m taskId =
        .ok (true, { m with tasks := m.tasks ++ [taskId],
                            spawned := m.spawned ++ [taskId] })) ∧
    (taskId ∈ m.tasks → addTask m taskId = .ok (false, m)) := by
  constructor
  · intro hfresh
    unfold addTask
    simp [hstarted, hfresh]
  · intro hdup
    unfold addTask
    simp [hstarted, hdup]

open TaskMgr in
/-- Witness for C8: on a started manager with an empty registry the task
`"42"` is admitted; re-adding `"42"` afterwards is refused. -/
theorem C8_in_process_only_witness :
    addTask ⟨true, [], []⟩ "42" = .ok (true, ⟨true, ["42"], ["42"]⟩) ∧
    addTask ⟨true, ["42"], ["42"]⟩ "42" = .ok (false, ⟨true, ["42"], ["42"]⟩) := by
  have h1 := (C8_in_process_only ⟨true, [], []⟩ "42" rfl).1 (by decide)
  have h2 := (C8_in_process_only ⟨true, ["42"], ["42"]⟩ "42" rfl).2 (by decide)
  exact ⟨h1, h2⟩

open TaskMgr in
/-- C9 (code bug): in `AnyioTaskManager`, a second `add_task` with an
already-registered task id returns `false`, raises nothing, starts no
second coroutine and leaves the manager untouched — exactly as claimed.
But in the older `AsyncTaskManager` the same claim fails: `add_task` holds
`self.lock` across the task-group exit that awaits the spawned
`_run_task`, whose `finally` re-acquires that very lock, so the first call
deadlocks and a second call with the same id blocks forever at the lock —
in no scheduling of the concrete two-call scenario does either call ever
return, so the second call never returns `false`; the scenario provably
reaches the stuck configuration `deadConfig`, from which no step is
enabled while the second call still waits at `start`. -/
theorem C9_duplicate_task_id_rejected (m : AnyioMgr) (taskId : String)
    (hstarted : m.tgStarted = true) (hdup : taskId ∈ m.tasks)
    (c : AsyncioConfig) (hreach : AsyncioReach c) :
    addTask m taskId = .ok (false, m) ∧
    (c.a1 ≠ .returnedTrue ∧ c.a1 ≠ .returnedFalse ∧
     c.a2 ≠ .returnedTrue ∧ c.a2 ≠ .returnedFalse) ∧
    deadConfig ∈ asyncioReachable ∧
    nexts deadConfig = [] ∧
    deadConfig.a2 = .start := by
  refine ⟨?_, ?_, by decide, by decide, rfl⟩
  · unfold addTask
    simp [hstarted, hdup]
  · have hmem := asyncioReach_mem c hreach
    have hall : ∀ x ∈ asyncioReachable,
        x.a1 ≠ APc.returnedTrue ∧ x.a1 ≠ APc.returnedFalse ∧
        x.a2 ≠ APc.returnedTrue ∧ x.a2 ≠ APc.returnedFalse := by decide
    exact hall c hmem

open TaskMgr in
/-- Witness for C9: with task `"7"` registered and still running,
`AnyioTaskManager.add_task "7"` returns `false` without raising or
spawning; and the `AsyncTaskManager` scenario reaches `deadConfig` by the
explicit five-step schedule (first call acquires the lock, passes the
duplicate check, spawns `_run_task`, registers the id and blocks at the
task-group exit; `_run_task` finishes its body and blocks on the lock),
where neither call has returned, no step is enabled, and the second call
still waits to acquire the lock. -/
theorem C9_duplicate_task_id_rejected_witness :
    addTask ⟨true, ["7"], ["7"]⟩ "7" = .ok (false, ⟨true, ["7"], ["7"]⟩) ∧
    (deadConfig.a1 ≠ .returnedTrue ∧ deadConfig.a1 ≠ .returnedFalse ∧
     deadConfig.a2 ≠ .returnedTrue ∧ deadConfig.a2 ≠ .returnedFalse) ∧
    deadConfig ∈ asyncioReachable ∧
    nexts deadConfig = [] ∧
    deadConfig.a2 = .start := by
  have s1 : AsyncioReach
      ⟨.checkDup, .start, .notSpawned, .notSpawned, some .callA1, false⟩ :=
    .step .base (by decide)
  have s2 : AsyncioReach
      ⟨.spawnRun, .start, .notSpawned, .notSpawned, some .callA1, false⟩ :=
    .step s1 (by decide)
  have s3 : AsyncioReach
      ⟨.insertReg, .start, .body, .notSpawned, some .callA1, false⟩ :=
    .step s2 (by decide)
  have s4 : AsyncioReach
      ⟨.joinTg, .start, .body, .notSpawned, some .callA1, true⟩ :=
    .step s3 (by decide)
  have hreach : AsyncioReach deadConfig := .step s4 (by decide)
  exact C9_duplicate_task_id_rejected ⟨true, ["7"], ["7"]⟩ "7" rfl
    (by decide) deadConfig hreach

namespace Orm

theorem dictGet_dictSet_self {α : Type} (d : PyDict α) (k : String) (v : α) :
    dictGet (dictSet d k v) k = some v := by
  induction d with
  | nil => simp [dictSet, dictGet]
  | cons kv rest ih =>
    by_cases h : kv.1 = k
    · simp [dictSet, dictGet, h]
    · simp only [dictSet, beq_iff_eq, h, if_false]
      simpa [dictGet, List.find?_cons, h] using ih

theorem dictGet_dictSet_ne {α : Type} (d : PyDict α) (k k' : String) (v : α)
    (hne : k ≠ k') :
    dictGet (dictSet d k v) k' = dictGet d k' := by
  induction d with
  | nil => simp [dictSet, dictGet, hne]
  | cons kv rest ih =>
    by_cases h : kv.1 = k
    · simp [dictSet, dictGet, h, hne]
    · simp only [dictSet, beq_iff_eq, h, if_false]
      by_cases h' : kv.1 = k'
      · simp [dictGet, List.find?_cons, h']
      · simpa [dictGet, List.find?_cons, h'] using ih

theorem mem_dictSet {α : Type} (d : PyDict α) (k : String) (v : α)
    (kv : String × α) (h : kv ∈ dictSet d k v) : kv = (k, v) ∨ kv ∈ d := by
  induction d with
  | nil => simpa [dictSet] using h
  | cons kv₀ rest ih =>
    by_cases hk : kv₀.1 = k
    · simp only [dictSet, beq_iff_eq, hk, if_true, List.mem_cons] at h
      rcases h with h | h
      · exact Or.inl h
      · exact Or.inr (List.mem_cons_of_mem _ h)
    · simp only [dictSet, beq_iff_eq, hk, if_false, List.mem_cons] at h
      rcases h with h | h
      · exact Or.inr (by simp [h])
      · rcases ih h with h' | h'
        · exact Or.inl h'
        · exact Or.inr (List.mem_cons_of_mem _ h')

theorem dictGet_mem {α : Type} (d : PyDict α) (k : String) (w : α)
    (h : dictGet d k = some w) : ∃ kv ∈ d, kv.2 = w := by
  unfold dictGet at h
  cases hf : d.find? (fun kv => kv.1 == k) with
  | none => rw [hf] at h; exact absurd h (by simp)
  | some kv₀ =>
    rw [hf] at h
    refine ⟨kv₀, List.mem_of_find?_eq_some hf, ?_⟩
    simpa using h

end Orm

namespace Cache

open Orm

/-- State of the key-value cache as the session subsystem uses it: the
scalar keyspace `session:<token>` (each value being the JSON user_data
projection, modelled by the user id it carries) and the list keyspace
`session_list:<user_id>`. -/
structure CacheState where
  kv : PyDict Nat
  lists : PyDict (List String)
deriving DecidableEq, Repr

def emptyCache : CacheState := ⟨[], []⟩

/-- `session_cache_key` from `src/pkg/__init__.py`. -/
def sessionCacheKey (session : String) : String := "session:" ++ session

/-- `session_list_cache_key` from `src/pkg/__init__.py`. -/
def sessionListCacheKey (userId : Nat) : String :=
  "session_list:" ++ toString userId

/-- `redis.lrange(name, 0, -1)` as used by `get_list`: the whole list, the
empty list when the key is absent. -/
def getList (st : CacheState) (k : String) : List String :=
  (dictGet st.lists k).getD []

/-- `redis.rpush`: append on the right. -/
def rpush (st : CacheState) (k : String) (v : String) : CacheState :=
  { st with lists := dictSet st.lists k (getList st k ++ [v]) }

/-- `redis.lpop`: drop the leftmost element. -/
def lpop (st : CacheState) (k : String) : CacheState :=
  { st with lists := dictSet st.lists k (getList st k).tail }

/-- Embedding of `set_session` (`src/internal/dao/cache.py` lines 11-17):
store the user data under `session:<token>`. -/
def setSession (st : CacheState) (session : String) (userId : Nat) :
    CacheState :=
  { st with kv := dictSet st.kv (sessionCacheKey session) userId }

/-- Embedding of `set_session_list` (`src/internal/dao/cache.py` lines
27-46): read the whole list; when it is empty or shorter than 3, rpush the
new token; otherwise (re-checking `len >= 3` as the source does) lpop the
oldest token and rpush the new one.  The deletion of the evicted token
record `session:<old>` is commented out in the source, so the record
survives. -/
def setSessionList (st : CacheState) (userId : Nat) (session : String) :
    CacheState :=
  let cacheKey := sessionListCacheKey userId
  let sessionList := getList st cacheKey
  if sessionList.isEmpty ∨ sessionList.length < 3 then
    rpush st cacheKey session
  else
    if sessionList.length ≥ 3 then
      rpush (lpop st cacheKey) cacheKey session
    else
      st

/-- Embedding of `login_and_set_session` (lines 207-213): the fresh opaque
token is created by `shortuuid` and passed in here as `session`; the user
data is stored under the session key and the token is registered in the
session list of the user. -/
def loginAndSetSession (st : CacheState) (userId : Nat) (session : String) :
    CacheState :=
  setSessionList (setSession st session userId) userId session

def applyLogins : List (Nat × String) → CacheState → CacheState
  | [], st => st
  | (u, t) :: rest, st => applyLogins rest (loginAndSetSession st u t)

/-- Embedding of `verify_session` (`src/internal/core/session.py` lines
8-29): an empty token fails; a token with no `session:<token>` record
fails; user data without a truthy id fails; a token absent from
`session_list:<user_id>` fails; otherwise the user data is returned with
success. -/
def verifySession (st : CacheState) (session : String) : Option Nat × Bool :=
  if session = "" then (none, false)
  else
    match dictGet st.kv (sessionCacheKey session) with
    | none => (none, false)
    | some userId =>
      if userId = 0 then (none, false)
      else
        let sessionList := getList st (sessionListCacheKey userId)
        if session ∈ sessionList then (some userId, true) else (none, false)

theorem getList_rpush_self (st : CacheState) (k : String) (v : String) :
    getList (rpush st k v) k = getList st k ++ [v] := by
  unfold getList rpush
  rw [dictGet_dictSet_self]
  rfl

theorem getList_rpush_ne (st : CacheState) (k k' : String) (v : String)
    (h : k ≠ k') : getList (rpush st k v) k' = getList st k' := by
  unfold getList rpush
  rw [dictGet_dictSet_ne _ _ _ _ h]

theorem getList_lpop_self (st : CacheState) (k : String) :
    getList (lpop st k) k = (getList st k).tail := by
  unfold getList lpop
  rw [dictGet_dictSet_self]
  rfl

theorem getList_lpop_ne (st : CacheState) (k k' : String) (h : k ≠ k') :
    getList (lpop st k) k' = getList st k' := by
  unfold getList lpop
  rw [dictGet_dictSet_ne _ _ _ _ h]

theorem getList_setSession (st : CacheState) (s : String) (u : Nat)
    (k : String) : getList (setSession st s u) k = getList st k := rfl

theorem getList_setSessionList_self (st : CacheState) (u : Nat) (s : String) :
    getList (setSessionList st u s) (sessionListCacheKey u) =
      if (getList st (sessionListCacheKey u)).length < 3 then
        getList st (sessionListCacheKey u) ++ [s]
      else
        (getList st (sessionListCacheKey u)).tail ++ [s] := by
  unfold setSessionList
  by_cases hsh : (getList st (sessionListCacheKey u)).length < 3
  · rw [if_pos (Or.inr hsh), getList_rpush_self, if_pos hsh]
  · have hemp : ¬ (getList st (sessionListCacheKey u)).isEmpty = true := by
      intro habs
      rw [List.isEmpty_iff] at habs
      exact hsh (by simp [habs])
    have hcond : ¬ ((getList st (sessionListCacheKey u)).isEmpty = true ∨
        (getList st (sessionListCacheKey u)).length < 3) := by
      intro habs
      rcases habs with habs | habs
      · exact hemp habs
      · exact hsh habs
    rw [if_neg hcond, if_pos (le_of_not_lt hsh), getList_rpush_self,
      getList_lpop_self, if_neg hsh]

theorem getList_setSessionList_ne (st : CacheState) (u : Nat) (s : String)
    (k : String) (h : sessionListCacheKey u ≠ k) :
    getList (setSessionList st u s) k = getList st k := by
  unfold setSessionList
  by_cases hcond : (getList st (sessionListCacheKey u)).isEmpty ∨
      (getList st (sessionListCacheKey u)).length < 3
  · simp only [hcond, if_true]
    exact getList_rpush_ne _ _ _ _ h
  · simp only [hcond, if_false]
    by_cases hge : (getList st (sessionListCacheKey u)).length ≥ 3
    · simp only [hge, if_true]
      rw [getList_rpush_ne _ _ _ _ h, getList_lpop_ne _ _ _ h]
    · simp only [hge, if_false]

theorem setSessionList_cap (st : CacheState) (u : Nat) (s : String)
    (h : ∀ k, (getList st k).length ≤ 3) :
    ∀ k, (getList (setSessionList st u s) k).length ≤ 3 := by
  intro k
  by_cases hk : sessionListCacheKey u = k
  · subst hk
    rw [getList_setSessionList_self]
    by_cases hsh : (getList st (sessionListCacheKey u)).length < 3
    · simp only [hsh, if_true, List.length_append, List.length_singleton]
      omega
    · simp only [hsh, if_false, List.length_append, List.length_singleton,
        List.length_tail]
      have := h (sessionListCacheKey u)
      omega
  · rw [getList_setSessionList_ne _ _ _ _ hk]
    exact h k

theorem applyLogins_cap (logins : List (Nat × String)) (st : CacheState)
    (h : ∀ k, (getList st k).length ≤ 3) :
    ∀ k, (getList (applyLogins logins st) k).length ≤ 3 := by
  induction logins generalizing st with
  | nil => exact h
  | cons ut rest ih =>
    cases ut with
    | mk u t =>
      exact ih (loginAndSetSession st u t)
        (fun k => by
          unfold loginAndSetSession
          exact setSessionList_cap _ _ _
            (fun k' => by rw [getList_setSession]; exact h k') k)

end Cache

namespace Cache

theorem kv_setSessionList (st : CacheState) (u : Nat) (s : String) :
    (setSessionList st u s).kv = st.kv := by
  unfold setSessionList
  by_cases hcond : (getList st (sessionListCacheKey u)).isEmpty = true ∨
      (getList st (sessionListCacheKey u)).length < 3
  · rw [if_pos hcond]
    rfl
  · rw [if_neg hcond]
    by_cases hge : (getList st (sessionListCacheKey u)).length ≥ 3
    · rw [if_pos hge]
      rfl
    · rw [if_neg hge]

theorem kv_loginAndSetSession (st : CacheState) (u : Nat) (s : String) :
    (loginAndSetSession st u s).kv =
      Orm.dictSet st.kv (sessionCacheKey s) u := by
  unfold loginAndSetSession
  rw [kv_setSessionList]
  rfl

end Cache

open Cache Orm in
/-- C2: for every user, after any sequence of logins the list
`session_list:<user_id>` holds at most 3 tokens; after 4 logins of the same
user the list is exactly the last three tokens in FIFO order, has length 3,
no longer contains the first-issued token, and that evicted token fails
`verify_session` (membership in the list is required at verification
time). -/
theorem C2_session_cap_fifo (u : Nat) (t1 t2 t3 t4 : String)
    (h12 : t1 ≠ t2) (h13 : t1 ≠ t3) (h14 : t1 ≠ t4) :
    getList (applyLogins [(u, t1), (u, t2), (u, t3), (u, t4)] emptyCache)
        (sessionListCacheKey u) = [t2, t3, t4] ∧
    (getList (applyLogins [(u, t1), (u, t2), (u, t3), (u, t4)] emptyCache)
        (sessionListCacheKey u)).length = 3 ∧
    t1 ∉ getList (applyLogins [(u, t1), (u, t2), (u, t3), (u, t4)] emptyCache)
        (sessionListCacheKey u) ∧
    (verifySession (applyLogins [(u, t1), (u, t2), (u, t3), (u, t4)] emptyCache)
        t1).2 = false ∧
    (∀ (logins : List (Nat × String)) (k : String),
      (getList (applyLogins logins emptyCache) k).length ≤ 3) := by
  have hst : applyLogins [(u, t1), (u, t2), (u, t3), (u, t4)] emptyCache =
      loginAndSetSession (loginAndSetSession (loginAndSetSession
        (loginAndSetSession emptyCache u t1) u t2) u t3) u t4 := rfl
  have e0 : getList emptyCache (sessionListCacheKey u) = [] := rfl
  have e1 : getList (loginAndSetSession emptyCache u t1)
      (sessionListCacheKey u) = [t1] := by
    unfold loginAndSetSession
    rw [getList_setSessionList_self, getList_setSession, e0]
    simp
  have e2 : getList (loginAndSetSession (loginAndSetSession emptyCache u t1)
      u t2) (sessionListCacheKey u) = [t1, t2] := by
    conv_lhs => rw [loginAndSetSession]
    rw [getList_setSessionList_self, getList_setSession, e1]
    simp
  have e3 : getList (loginAndSetSession (loginAndSetSession
      (loginAndSetSession emptyCache u t1) u t2) u t3)
      (sessionListCacheKey u) = [t1, t2, t3] := by
    conv_lhs => rw [loginAndSetSession]
    rw [getList_setSessionList_self, getList_setSession, e2]
    simp
  have e4 : getList (applyLogins [(u, t1), (u, t2), (u, t3), (u, t4)]
      emptyCache) (sessionListCacheKey u) = [t2, t3, t4] := by
    rw [hst]
    conv_lhs => rw [loginAndSetSession]
    rw [getList_setSessionList_self, getList_setSession, e3]
    simp
  have hnotmem : t1 ∉ ([t2, t3, t4] : List String) := by
    intro hmem
    rcases List.mem_cons.mp hmem with h | hmem
    · exact h12 h
    rcases List.mem_cons.mp hmem with h | hmem
    · exact h13 h
    rcases List.mem_cons.mp hmem with h | hmem
    · exact h14 h
    · exact List.not_mem_nil t1 hmem
  refine ⟨e4, by rw [e4]; rfl, by rw [e4]; exact hnotmem, ?_, ?_⟩
  · have hkvs : (applyLogins [(u, t1), (u, t2), (u, t3), (u, t4)]
        emptyCache).kv =
        dictSet (dictSet (dictSet (dictSet [] (sessionCacheKey t1) u)
          (sessionCacheKey t2) u) (sessionCacheKey t3) u)
          (sessionCacheKey t4) u := by
      rw [hst, kv_loginAndSetSession, kv_loginAndSetSession,
        kv_loginAndSetSession, kv_loginAndSetSession]
      rfl
    have hvals : ∀ kv ∈ (applyLogins [(u, t1), (u, t2), (u, t3), (u, t4)]
        emptyCache).kv, kv.2 = u := by
      rw [hkvs]
      intro kv hmem
      rcases mem_dictSet _ _ _ _ hmem with h | hmem
      · rw [h]
      rcases mem_dictSet _ _ _ _ hmem with h | hmem
      · rw [h]
      rcases mem_dictSet _ _ _ _ hmem with h | hmem
      · rw [h]
      rcases mem_dictSet _ _ _ _ hmem with h | hmem
      · rw [h]
      · exact absurd hmem (List.not_mem_nil kv)
    unfold verifySession
    by_cases ht : t1 = ""
    · rw [if_pos ht]
    · rw [if_neg ht]
      cases hkv : dictGet (applyLogins [(u, t1), (u, t2), (u, t3), (u, t4)]
          emptyCache).kv (sessionCacheKey t1) with
      | none => rfl
      | some uid =>
        obtain ⟨kv0, hkv0mem, hkv0⟩ := dictGet_mem _ _ _ hkv
        have huid : uid = u := hkv0 ▸ (hvals kv0 hkv0mem) ▸ rfl
        subst huid
        by_cases hz : uid = 0
        · simp [hz]
        · simp [hz, e4, hnotmem]
  · intro logins k
    exact applyLogins_cap logins emptyCache
      (fun k' => by simp [getList, emptyCache, Orm.dictGet]) k

open Cache in
/-- Witness for C2: user 1 logging in with tokens `"a"`, `"b"`, `"c"`,
`"d"` ends with session list `["b", "c", "d"]` of length 3, the evicted
token `"a"` absent and failing verification, and every session list
produced by a concrete login sequence stays within the cap. -/
theorem C2_session_cap_fifo_witness :
    getList (applyLogins [(1, "a"), (1, "b"), (1, "c"), (1, "d")] emptyCache)
        (sessionListCacheKey 1) = ["b", "c", "d"] ∧
    (getList (applyLogins [(1, "a"), (1, "b"), (1, "c"), (1, "d")] emptyCache)
        (sessionListCacheKey 1)).length = 3 ∧
    "a" ∉ getList (applyLogins [(1, "a"), (1, "b"), (1, "c"), (1, "d")]
        emptyCache) (sessionListCacheKey 1) ∧
    (verifySession (applyLogins [(1, "a"), (1, "b"), (1, "c"), (1, "d")]
        emptyCache) "a").2 = false ∧
    (getList (applyLogins [(1, "a"), (1, "b"), (1, "c"), (1, "d"), (1, "e")]
        emptyCache) (sessionListCacheKey 1)).length ≤ 3 := by
  have h := C2_session_cap_fifo 1 "a" "b" "c" "d" (by decide) (by decide)
    (by decide)
  exact ⟨h.1, h.2.1, h.2.2.1, h.2.2.2.1,
    h.2.2.2.2 [(1, "a"), (1, "b"), (1, "c"), (1, "d"), (1, "e")]
      (sessionListCacheKey 1)⟩

namespace Snowflake

/-- Mutable state of one `Snowflake` generator instance
(`src/pkg/snow_flake.py`): the per-millisecond sequence counter and the
timestamp of the last generated id (initially `-1`). -/
structure SnowflakeState where
  sequence : Nat
  lastTimestamp : Int
deriving DecidableEq, Repr

def initState : SnowflakeState := ⟨0, -1⟩

def workerIdBits : Nat := 5
def datacenterIdBits : Nat := 5
def sequenceBits : Nat := 12

/-- `-1 ^ (-1 << worker_id_bits)` in the source: the all-ones mask of the
worker-id width, 31. -/
def maxWorkerId : Nat := 2 ^ workerIdBits - 1

def workerIdShift : Nat := sequenceBits
def datacenterIdShift : Nat := sequenceBits + workerIdBits
def timestampShift : Nat := sequenceBits + workerIdBits + datacenterIdBits

/-- Embedding of `Snowflake.generate_id` (`src/pkg/snow_flake.py` lines
36-55), with the wall clock passed in as `timestamp` (milliseconds).  A
clock that moved backwards raises.  When the timestamp equals the previous
one, the sequence is incremented and masked with `max_worker_id` — the
5-bit worker mask, exactly as the source does — otherwise it resets to 0.
The id packs timestamp, datacenter id, worker id and sequence with ORs. -/
def generateId (workerId datacenterId : Nat) (timestamp : Nat)
    (st : SnowflakeState) : Except String (Nat × SnowflakeState) :=
  if (timestamp : Int) < st.lastTimestamp then
    .error "Clock is moving backwards. Rejecting requests."
  else
    let sequence :=
      if st.lastTimestamp == (timestamp : Int) then
        (st.sequence + 1) &&& maxWorkerId
      else 0
    let snowflakeId :=
      (timestamp <<< timestampShift) ||| (datacenterId <<< datacenterIdShift)
        ||| (workerId <<< workerIdShift) ||| sequence
    .ok (snowflakeId, ⟨sequence, (timestamp : Int)⟩)

/-- Ids produced by consecutive `generate_id` calls at the given sequence
of observed clock values; generation stops at a backwards clock (the
source raises there). -/
def genIds (workerId datacenterId : Nat) :
    List Nat → SnowflakeState → List Nat
  | [], _ => []
  | ts :: rest, st =>
    match generateId workerId datacenterId ts st with
    | .error _ => []
    | .ok (snowflakeId, st2) => snowflakeId :: genIds workerId datacenterId rest st2

end Snowflake

open Snowflake in
/-- C3 (code bug): `generate_id` masks the incrementing sequence with the
worker-id mask 31 instead of the 12-bit sequence mask 4095, so within a
single millisecond the counter wraps after 32 ids: 33 calls on the default
generator (worker 0, datacenter 0) inside one millisecond produce 33 ids
that are NOT pairwise distinct — the 33rd id equals the 1st — while 32
calls still stay collision-free.  The claimed 4096-per-millisecond
capacity therefore fails at 33 calls. -/
theorem C3_sequence_wraps_at_32 :
    (genIds 0 0 (List.replicate 33 1) initState).length = 33 ∧
    ¬ (genIds 0 0 (List.replicate 33 1) initState).Nodup ∧
    (genIds 0 0 (List.replicate 33 1) initState)[32]? =
      (genIds 0 0 (List.replicate 33 1) initState)[0]? ∧
    (genIds 0 0 (List.replicate 32 1) initState).Nodup := by
  refine ⟨by decide, by decide, by decide, by decide⟩

namespace Resp

/-- JSON document produced by `orjson.dumps`.  Floating-point numbers are
kept as exact rationals: every float the claims mention is exactly
representable as an IEEE double, so no rounding is modelled. -/
inductive JVal where
  | jnull
  | jbool (b : Bool)
  | jint (n : Int)
  | jfloat (q : Rat)
  | jstr (s : String)
  | jarr (elems : List JVal)
  | jobj (fields : List (String × JVal))

/-- A Python `datetime.datetime`: calendar fields plus the optional
timezone, represented by its UTC offset in minutes (`some 0` is
`timezone.utc`, `none` is a naive datetime). -/
structure Datetime where
  year : Nat
  month : Nat
  day : Nat
  hour : Nat
  minute : Nat
  second : Nat
  microsecond : Nat
  tzOffsetMinutes : Option Int
deriving DecidableEq, Repr

/-- A Python value that can reach `CustomORJSONResponse.render`
(`src/pkg/resp.py`).  `pDecimal` carries the `as_tuple()` form of a
`Decimal`: sign, digit list and exponent.  `pTimedelta` carries the
`days`/`seconds`/`microseconds` fields of a `timedelta`. -/
inductive PyVal where
  | pNone
  | pBool (b : Bool)
  | pInt (n : Int)
  | pFloat (q : Rat)
  | pStr (s : String)
  | pBytes (bs : List Nat)
  | pDatetime (dt : Datetime)
  | pTimedelta (days seconds microseconds : Int)
  | pDecimal (sign : Bool) (digits : List Nat) (exponent : Int)
  | pDict (fields : List (String × PyVal))
  | pList (elems : List PyVal)
  | pTuple (elems : List PyVal)
  | pSet (elems : List PyVal)
  | pFrozenset (elems : List PyVal)

/-- Zero-padded decimal rendering, as the Python datetime formatter
produces for each calendar field. -/
def natPad (n : Nat) (width : Nat) : String :=
  let s := toString n
  String.mk (List.replicate (width - s.length) '0') ++ s

/-- `datetime.isoformat()`: `YYYY-MM-DDTHH:MM:SS`, the microseconds as
`.ffffff` when nonzero, and the UTC offset as `±HH:MM` for aware
datetimes. -/
def isoformat (dt : Datetime) : String :=
  natPad dt.year 4 ++ "-" ++ natPad dt.month 2 ++ "-" ++ natPad dt.day 2
    ++ "T" ++ natPad dt.hour 2 ++ ":" ++ natPad dt.minute 2 ++ ":"
    ++ natPad dt.second 2
    ++ (if dt.microsecond ≠ 0 then "." ++ natPad dt.microsecond 6 else "")
    ++ (match dt.tzOffsetMinutes with
        | none => ""
        | some o =>
          (if o < 0 then "-" else "+") ++ natPad (o.natAbs / 60) 2 ++ ":"
            ++ natPad (o.natAbs % 60) 2)

def digitsStr (digits : List Nat) : String :=
  String.mk (digits.map (fun d => Char.ofNat (d + 48)))

/-- `str(Decimal)`, following the to-scientific-string conversion of the
General Decimal Arithmetic specification that the Python `decimal` module
implements: plain notation when `exponent ≤ 0` and the adjusted exponent
is at least `-6`, scientific notation otherwise. -/
def decimalStr (sign : Bool) (digits : List Nat) (exponent : Int) : String :=
  let n : Int := (digits.length : Int)
  let adjusted : Int := exponent + n - 1
  let body :=
    if exponent ≤ 0 ∧ adjusted ≥ -6 then
      if exponent = 0 then digitsStr digits
      else
        let ip : Int := n + exponent
        if ip > 0 then
          digitsStr (digits.take ip.toNat) ++ "." ++ digitsStr (digits.drop ip.toNat)
        else
          "0." ++ String.mk (List.replicate (-ip).toNat '0') ++ digitsStr digits
    else
      match digits with
      | [] => "0"
      | d :: rest =>
        digitsStr [d]
          ++ (if rest.isEmpty then "" else "." ++ digitsStr rest)
          ++ "E" ++ (if adjusted < 0 then "-" else "+") ++ toString adjusted.natAbs
  (if sign then "-" else "") ++ body

/-- `float(Decimal)` as an exact rational. -/
def decimalToRat (sign : Bool) (digits : List Nat) (exponent : Int) : Rat :=
  let m : Nat := digits.foldl (fun acc d => acc * 10 + d) 0
  let mag : Rat :=
    if 0 ≤ exponent then (m : Rat) * (10 : Rat) ^ exponent.toNat
    else (m : Rat) / (10 : Rat) ^ (-exponent).toNat
  if sign then -mag else mag

/-- `timedelta.total_seconds()` as an exact rational. -/
def timedeltaTotalSeconds (days seconds microseconds : Int) : Rat :=
  (86400 * days + seconds : Int) + (microseconds : Rat) / 1000000

/-- UTF-8 decoding with the `ignore` error handler of
`bytes.decode("utf-8", "ignore")`: well-formed sequences (excluding
overlong forms and surrogates) decode to their scalar values, and the
bytes of a malformed sequence are skipped. -/
def utf8DecodeIgnoreAux : Nat → List Nat → List Char
  | 0, _ => []
  | _, [] => []
  | fuel + 1, b :: rest =>
    if b < 0x80 then Char.ofNat b :: utf8DecodeIgnoreAux fuel rest
    else if 0xC2 ≤ b ∧ b ≤ 0xDF then
      match rest with
      | [] => []
      | b2 :: rest2 =>
        if 0x80 ≤ b2 ∧ b2 ≤ 0xBF then
          Char.ofNat ((b - 0xC0) * 64 + (b2 - 0x80)) :: utf8DecodeIgnoreAux fuel rest2
        else utf8DecodeIgnoreAux fuel rest
    else if 0xE0 ≤ b ∧ b ≤ 0xEF then
      match rest with
      | b2 :: b3 :: rest3 =>
        if ((b = 0xE0 ∧ 0xA0 ≤ b2 ∧ b2 ≤ 0xBF) ∨
            (b = 0xED ∧ 0x80 ≤ b2 ∧ b2 ≤ 0x9F) ∨
            (b ≠ 0xE0 ∧ b ≠ 0xED ∧ 0x80 ≤ b2 ∧ b2 ≤ 0xBF)) ∧
            (0x80 ≤ b3 ∧ b3 ≤ 0xBF) then
          Char.ofNat ((b - 0xE0) * 4096 + (b2 - 0x80) * 64 + (b3 - 0x80))
            :: utf8DecodeIgnoreAux fuel rest3
        else utf8DecodeIgnoreAux fuel rest
      | _ => utf8DecodeIgnoreAux fuel rest
    else if 0xF0 ≤ b ∧ b ≤ 0xF4 then
      match rest with
      | b2 :: b3 :: b4 :: rest4 =>
        if ((b = 0xF0 ∧ 0x90 ≤ b2 ∧ b2 ≤ 0xBF) ∨
            (b = 0xF4 ∧ 0x80 ≤ b2 ∧ b2 ≤ 0x8F) ∨
            (b ≠ 0xF0 ∧ b ≠ 0xF4 ∧ 0x80 ≤ b2 ∧ b2 ≤ 0xBF)) ∧
            (0x80 ≤ b3 ∧ b3 ≤ 0xBF) ∧ (0x80 ≤ b4 ∧ b4 ≤ 0xBF) then
          Char.ofNat ((b - 0xF0) * 262144 + (b2 - 0x80) * 4096
              + (b3 - 0x80) * 64 + (b4 - 0x80))
            :: utf8DecodeIgnoreAux fuel rest4
        else utf8DecodeIgnoreAux fuel rest
      | _ => utf8DecodeIgnoreAux fuel rest
    else utf8DecodeIgnoreAux fuel rest

/-- Each decoding step consumes at least one byte, so a fuel of the byte
count suffices for the whole input. -/
def bytesDecodeUtf8Ignore (bs : List Nat) : String :=
  String.mk (utf8DecodeIgnoreAux bs.length bs)

/-- The Python `str.replace`: scan left to right, replacing each
non-overlapping occurrence of the pattern.  The fuel (the length of the
scanned text) bounds the recursion; the only pattern used by the source,
`"+00:00"`, is nonempty, so every step consumes at least one character. -/
def strReplaceAux : Nat → List Char → List Char → List Char → List Char
  | 0, s, _, _ => s
  | fuel + 1, s, pat, rep =>
    match s with
    | [] => []
    | c :: rest =>
      if pat.isPrefixOf s then
        rep ++ strReplaceAux fuel (s.drop pat.length) pat rep
      else
        c :: strReplaceAux fuel rest pat rep

def pyReplace (s pattern replacement : String) : String :=
  String.mk (strReplaceAux s.length s.toList pattern.toList replacement.toList)

mutual

/-- Embedding of the inner `custom_serializer` of
`CustomORJSONResponse.render` (`src/pkg/resp.py` lines 21-45), mirroring
the branch order of the source: dicts recurse on their values;
list/tuple/set/frozenset become lists of serialized elements; naive
datetimes get the UTC timezone attached and every datetime is rendered as
`isoformat()` with `+00:00` replaced by `Z`; a `Decimal` becomes a float
when its exponent is at least `-6` and a string otherwise; an int with
absolute value at least `2^53` becomes its decimal string; bytes decode as
UTF-8 ignoring invalid sequences; a timedelta becomes its total seconds;
everything else is returned unchanged. -/
def customSerializer : PyVal → PyVal
  | .pDict fields => .pDict (serializeFields fields)
  | .pList es => .pList (serializeList es)
  | .pTuple es => .pList (serializeList es)
  | .pSet es => .pList (serializeList es)
  | .pFrozenset es => .pList (serializeList es)
  | .pDatetime dt =>
    let obj :=
      if dt.tzOffsetMinutes = none then { dt with tzOffsetMinutes := some 0 }
      else dt
    .pStr (pyReplace (isoformat obj) "+00:00" "Z")
  | .pDecimal sign digits exponent =>
    if exponent ≥ -6 then .pFloat (decimalToRat sign digits exponent)
    else .pStr (decimalStr sign digits exponent)
  | .pInt n => if 2 ^ 53 ≤ n.natAbs then .pStr (toString n) else .pInt n
  | .pBytes bs => .pStr (bytesDecodeUtf8Ignore bs)
  | .pTimedelta days seconds microseconds =>
    .pFloat (timedeltaTotalSeconds days seconds microseconds)
  | v => v

def serializeList : List PyVal → List PyVal
  | [] => []
  | v :: rest => customSerializer v :: serializeList rest

def serializeFields : List (String × PyVal) → List (String × PyVal)
  | [] => []
  | (k, v) :: rest => (k, customSerializer v) :: serializeFields rest

end

mutual

/-- `orjson.dumps` on the pre-serialized value: JSON-native Python values
map to the corresponding JSON documents.  Values orjson cannot encode
would be handed back to `default=custom_serializer`; after the pre-pass no
such value remains, so that path is modelled as `none`. -/
def toJsonNative : PyVal → Option JVal
  | .pNone => some .jnull
  | .pBool b => some (.jbool b)
  | .pInt n => some (.jint n)
  | .pFloat q => some (.jfloat q)
  | .pStr s => some (.jstr s)
  | .pDict fields => (jsonFields fields).map .jobj
  | .pList es => (jsonList es).map .jarr
  | _ => none

def jsonList : List PyVal → Option (List JVal)
  | [] => some []
  | v :: rest =>
    match toJsonNative v, jsonList rest with
    | some j, some js => some (j :: js)
    | _, _ => none

def jsonFields : List (String × PyVal) → Option (List (String × JVal))
  | [] => some []
  | (k, v) :: rest =>
    match toJsonNative v, jsonFields rest with
    | some j, some js => some ((k, j) :: js)
    | _, _ => none

end

/-- Embedding of `CustomORJSONResponse.render`: the recursive pre-pass
followed by the orjson encoding. -/
def render (content : PyVal) : Option JVal :=
  toJsonNative (customSerializer content)

end Resp

set_option maxHeartbeats 1600000 in
open Resp in
/-- C5: the response serializer normalizes edge-case values as specified:
ints with absolute value at least `2^53` render as decimal strings and
smaller ints as numbers; a `Decimal` renders as a float when its exponent
is at least `-6` and as a string otherwise; a timezone-naive datetime
renders as ISO-8601 UTC with a trailing `Z`; `set`/`frozenset`/`tuple`
render exactly as JSON arrays (as the corresponding list does); bytes
decode as UTF-8 ignoring invalid sequences; a timedelta renders as its
total seconds. -/
theorem C5_render_normalizations :
    (∀ n : Int, 2 ^ 53 ≤ n.natAbs →
      render (.pInt n) = some (.jstr (toString n))) ∧
    (∀ n : Int, n.natAbs < 2 ^ 53 → render (.pInt n) = some (.jint n)) ∧
    (∀ (sign : Bool) (digits : List Nat) (e : Int), e ≥ -6 →
      render (.pDecimal sign digits e) =
        some (.jfloat (decimalToRat sign digits e))) ∧
    (∀ (sign : Bool) (digits : List Nat) (e : Int), e < -6 →
      render (.pDecimal sign digits e) =
        some (.jstr (decimalStr sign digits e))) ∧
    (∀ dt : Datetime, dt.tzOffsetMinutes = none →
      render (.pDatetime dt) =
        some (.jstr (pyReplace (isoformat { dt with tzOffsetMinutes := some 0 })
          "+00:00" "Z"))) ∧
    (∀ es : List PyVal,
      render (.pSet es) = render (.pList es) ∧
      render (.pFrozenset es) = render (.pList es) ∧
      render (.pTuple es) = render (.pList es)) ∧
    (∀ bs : List Nat,
      render (.pBytes bs) = some (.jstr (bytesDecodeUtf8Ignore bs))) ∧
    (∀ d s μ : Int,
      render (.pTimedelta d s μ) = some (.jfloat (timedeltaTotalSeconds d s μ))) := by
  refine ⟨?_, ?_, ?_, ?_, ?_, ?_, ?_, ?_⟩
  · intro n h
    unfold render customSerializer
    rw [if_pos h]
    rfl
  · intro n h
    unfold render customSerializer
    rw [if_neg (not_le.mpr h)]
    rfl
  · intro sign digits e h
    unfold render customSerializer
    rw [if_pos h]
    rfl
  · intro sign digits e h
    unfold render customSerializer
    rw [if_neg (not_le.mpr h)]
    rfl
  · intro dt h
    unfold render customSerializer
    rw [if_pos h]
    rfl
  · intro es
    exact ⟨rfl, rfl, rfl⟩
  · intro bs
    rfl
  · intro d s μ
    rfl

set_option maxHeartbeats 1600000 in
open Resp in
/-- Witness for C5: `2^53 + 1` serializes as the string
`"9007199254740993"` and `42` as the number `42`; the 29-fractional-digit
`Decimal` serializes as the string of its literal digits while
`Decimal("1.5")` becomes the float `1.5`; the naive `datetime(2023,1,1)`
becomes `"2023-01-01T00:00:00Z"`; the set of 1, 2, 3 becomes the array
`[1,2,3]`; the bytes `"hi"` followed by the invalid byte 255 decode to
`"hi"`; `timedelta(days=1, seconds=3600)` becomes `90000.0`. -/
theorem C5_render_normalizations_witness :
    render (.pInt (2 ^ 53 + 1)) = some (.jstr "9007199254740993") ∧
    render (.pInt 42) = some (.jint 42) ∧
    render (.pDecimal false
        [1, 2, 3, 4, 5, 6, 7, 8, 9, 0, 1, 2, 3, 4, 5, 6, 7, 8, 9, 0,
         1, 2, 3, 4, 5, 6, 7, 8, 9] (-29)) =
      some (.jstr "0.12345678901234567890123456789") ∧
    render (.pDecimal false [1, 5] (-1)) = some (.jfloat (3 / 2)) ∧
    render (.pDatetime ⟨2023, 1, 1, 0, 0, 0, 0, none⟩) =
      some (.jstr "2023-01-01T00:00:00Z") ∧
    render (.pSet [.pInt 1, .pInt 2, .pInt 3]) =
      some (.jarr [.jint 1, .jint 2, .jint 3]) ∧
    render (.pBytes [104, 105, 255]) = some (.jstr "hi") ∧
    render (.pTimedelta 1 3600 0) = some (.jfloat 90000) := by
  obtain ⟨h1, h2, h3, h4, h5, h6, h7, h8⟩ := C5_render_normalizations
  refine ⟨?_, ?_, ?_, ?_, ?_, ?_, ?_, ?_⟩
  · rw [h1 (2 ^ 53 + 1) (by decide)]
    rfl
  · rw [h2 42 (by decide)]
  · rw [h4 false
      [1, 2, 3, 4, 5, 6, 7, 8, 9, 0, 1, 2, 3, 4, 5, 6, 7, 8, 9, 0,
       1, 2, 3, 4, 5, 6, 7, 8, 9] (-29) (by decide)]
    rfl
  · rw [h3 false [1, 5] (-1) (by decide)]
    simp only [Option.some.injEq, JVal.jfloat.injEq]
    norm_num [decimalToRat, List.foldl]
  · rw [h5 ⟨2023, 1, 1, 0, 0, 0, 0, none⟩ rfl]
    rfl
  · rw [(h6 [.pInt 1, .pInt 2, .pInt 3]).1]
    rfl
  · rw [h7 [104, 105, 255]]
    rfl
  · rw [h8 1 3600 0]
    simp only [Option.some.injEq, JVal.jfloat.injEq]
    norm_num [timedeltaTotalSeconds]
